import Mathlib

/-!
Shallow embedding of the litestream admin-command handlers
(cmd/litestream/config.go, checkpoint.go, sync.go, snapshot.go):
the live-configuration reconciler (ConfigHandler.ServeHTTP) and the
checkpoint / sync / snapshot command dispatchers.

Machine-level points modelled faithfully:
* handles are compared by identity (Go pointer equality); here each
  handle carries a numeric id so that structural equality coincides
  with identity for freshly allocated handles;
* the removal pass of ConfigHandler.ServeHTTP ranges over the slice
  `h.c.DBs` while mutating it in place.  Go evaluates the range
  expression once, so the loop iterates over the ORIGINAL length and
  the (shared) backing array, while the in-place compaction rewrites a
  prefix of that backing array and re-slices.  The state is therefore
  modelled as a fixed-length backing list `bg` plus the current
  length `len`; the live running set is `bg.take len`.
-/

namespace Litestream

/-- Checkpoint modes of the replication engine
(litestream.CheckpointModePassive / Full / Restart / Truncate). -/
inductive CheckpointMode
  | passive
  | full
  | restart
  | truncate
deriving DecidableEq, Repr

/-- A replica handle (litestream.Replica), identified by name.  The
`...Err` fields are the outcome oracle for its fallible operations:
`none` means the call succeeds, `some e` means it fails with error
message `e`. -/
structure Replica where
  name : String
  syncErr : Option String := none
  snapshotErr : Option String := none
  retainErr : Option String := none
deriving DecidableEq, Repr

/-- A managed database handle (litestream.DB).  `id` models Go
pointer identity: distinct allocations have distinct ids.  The
`...Err` fields are the outcome oracle for the fallible operations
Close, Sync and Checkpoint invoked on this handle. -/
structure DB where
  id : Nat
  path : String
  closeErr : Option String := none
  replicas : List Replica := []
  syncErr : Option String := none
  checkpointErr : Option String := none
deriving DecidableEq, Repr

/-- One database entry of a configuration document (DBConfig).
`newErr` is the outcome of NewDBFromConfig for this entry, `openErr`
the outcome of the subsequent db.Open(), `closeErr` the outcome of a
later Close on the handle built from this entry. -/
structure DBConfig where
  path : String
  newErr : Option String := none
  openErr : Option String := none
  closeErr : Option String := none
  replicas : List Replica := []
deriving DecidableEq, Repr

/-- NewDBFromConfig: construct a fresh handle from a config entry;
`nextId` is the fresh allocation identity. -/
def NewDBFromConfig (nextId : Nat) (cfg : DBConfig) : DB :=
  { id := nextId, path := cfg.path, closeErr := cfg.closeErr, replicas := cfg.replicas }

/-- Result of the addition/keep pass of ConfigHandler.ServeHTTP:
the running set after the pass, the handles opened (in order), the
next fresh id, and the error that aborted the pass, if any. -/
structure AddResult where
  dbs : List DB
  opened : List DB
  nextId : Nat
  err : Option String
deriving DecidableEq, Repr

/-- The addition/keep pass of ConfigHandler.ServeHTTP (config.go
lines 58-88): iterate the new document's entries in order; an entry
whose path matches a handle in the current running set is kept
(no action); otherwise a fresh handle is constructed and opened and
appended to the running set; a construction or open failure aborts
the whole reconciliation immediately with a 500 message. -/
def additionPass (dbs : List DB) (doc : List DBConfig) (nextId : Nat) : AddResult :=
  match doc with
  | [] => ⟨dbs, [], nextId, none⟩
  | cfg :: rest =>
    if dbs.any (fun old => cfg.path == old.path) then
      additionPass dbs rest nextId
    else
      match cfg.newErr with
      | some e => ⟨dbs, [], nextId, some ("error opening database " ++ cfg.path ++ " for replication: " ++ e)⟩
      | none =>
        match cfg.openErr with
        | some e => ⟨dbs, [], nextId, some ("error opening database " ++ cfg.path ++ " for replication: " ++ e)⟩
        | none =>
          let db := NewDBFromConfig nextId cfg
          let r := additionPass (dbs ++ [db]) rest (nextId + 1)
          ⟨r.dbs, db :: r.opened, r.nextId, r.err⟩

/-- Result of the removal pass: the final running set, the sequence
of handles passed to Close (in call order, including a failing call),
and the error that aborted the pass, if any. -/
structure RemResult where
  dbs : List DB
  closed : List DB
  err : Option String
deriving DecidableEq, Repr

/-- One in-place compaction (config.go lines 106-113): rewrite the
prefix of the backing array with the members of the current slice
`bg.take len` that are not (pointer-)equal to `oldDB`, leaving the
stale suffix of the backing array unchanged, and re-slice to the
number of survivors. -/
def removalStep (bg : List DB) (len : Nat) (oldDB : DB) : List DB × Nat :=
  let survivors := (bg.take len).filter (fun db => db != oldDB)
  (survivors ++ bg.drop survivors.length, survivors.length)

/-- The removal loop body over the remaining range indices.  At index
`i` Go reads `oldDB` from position `i` of the backing array captured
when the range loop started (even positions at or beyond the current
length, which hold stale values).  A handle whose path appears in the
new document is kept; otherwise it is Closed (a failure aborts with a
500 message) and compacted out of the running set. -/
def removalGo (doc : List DBConfig) (bg : List DB) (len : Nat) (closed : List DB) :
    List Nat → RemResult
  | [] => ⟨bg.take len, closed, none⟩
  | i :: rest =>
    match bg.get? i with
    | none => removalGo doc bg len closed rest
    | some oldDB =>
      if doc.any (fun newDB => oldDB.path == newDB.path) then
        removalGo doc bg len closed rest
      else
        match oldDB.closeErr with
        | some e => ⟨bg.take len, closed ++ [oldDB],
            some ("error closing database " ++ oldDB.path ++ ": " ++ e)⟩
        | none =>
          let s := removalStep bg len oldDB
          removalGo doc s.1 s.2 (closed ++ [oldDB]) rest

/-- The removal pass of ConfigHandler.ServeHTTP (config.go lines
91-116): `for _, oldDB := range h.c.DBs` with in-loop mutation; the
range expression is evaluated once, so the loop visits the indices
`0 .. n-1` of the slice as it was when the loop started. -/
def removalPass (doc : List DBConfig) (dbs : List DB) : RemResult :=
  removalGo doc dbs dbs.length [] (List.range dbs.length)

/-- Result of a whole reconciliation: final running set, Open calls,
Close calls, next fresh id, and the aborting error, if any. -/
structure ReconcileResult where
  dbs : List DB
  opened : List DB
  closed : List DB
  nextId : Nat
  err : Option String
deriving DecidableEq, Repr

/-- The reconciliation performed by ConfigHandler.ServeHTTP after the
new document is stored: the addition/keep pass (an error there
returns before any removal), then the removal pass. -/
def reconcile (dbs : List DB) (doc : List DBConfig) (nextId : Nat) : ReconcileResult :=
  let a := additionPass dbs doc nextId
  match a.err with
  | some e => ⟨a.dbs, a.opened, [], a.nextId, some e⟩
  | none =>
    let r := removalPass doc a.dbs
    ⟨r.dbs, a.opened, r.closed, a.nextId, r.err⟩

/-- The in-memory state of the replication daemon that the handlers
share (the relevant fields of ReplicateCommand): the stored
configuration document and the running set.  `nextId` is the
allocation counter for fresh handle identities. -/
structure ReplicateCommand where
  config : List DBConfig
  dbs : List DB
  nextId : Nat
deriving DecidableEq, Repr

/-- ConfigHandler.ServeHTTP after a successful parse of the new
document: first the stored configuration is replaced wholesale
(`h.c.Config = newConfig`, config.go line 54), then both
reconciliation passes run against the stored (new) document.
Returns the updated command state and the reconciliation outcome. -/
def serveConfig (c : ReplicateCommand) (newDoc : List DBConfig) :
    ReplicateCommand × ReconcileResult :=
  let c1 : ReplicateCommand := { c with config := newDoc }
  let r := reconcile c1.dbs c1.config c1.nextId
  ({ c1 with dbs := r.dbs, nextId := r.nextId }, r)

/-- strings.Join: concatenate the elements with the separator between
consecutive elements. -/
def goJoin (sep : String) : List String → String
  | [] => ""
  | [x] => x
  | x :: y :: rest => x ++ sep ++ goJoin sep (y :: rest)

/-- The success body written by ConfigHandler.ServeHTTP (the variant
at checkpoint.go lines 256-260): the count of managed databases and
the comma-separated list of their paths. -/
def configSuccessBody (dbs : List DB) : String :=
  "replicating " ++ toString dbs.length ++ " databases: [" ++ goJoin ", " (dbs.map DB.path) ++ "]"

/-- ConfigHandler.ServeHTTP response after a successful parse: a 500
with the open/close error message when reconciliation aborts,
otherwise a 200 whose plain-text body is `configSuccessBody` of the
resulting running set. -/
def serveConfigResponse (c : ReplicateCommand) (newDoc : List DBConfig) :
    ReplicateCommand × Nat × String :=
  let p := serveConfig c newDoc
  match p.2.err with
  | some msg => (p.1, 500, msg)
  | none => (p.1, 200, configSuccessBody p.1.dbs)

/-- Mode-string parsing shared by checkpoint.go lines 103-111 and
sync.go lines 103-111: start from PASSIVE and override only on an
exact match of FULL, RESTART or TRUNCATE. -/
def parseMode (s : String) : CheckpointMode :=
  if s == "FULL" then .full
  else if s == "RESTART" then .restart
  else if s == "TRUNCATE" then .truncate
  else .passive

/-- An operation performed on the replication engine by a command
dispatcher, in call order. -/
inductive Op
  | dbSync (path : String)
  | repSync (path name : String)
  | checkpoint (path : String) (mode : CheckpointMode)
  | snapshot (path name : String)
  | retain (path name : String)
deriving DecidableEq, Repr

/-- The observable outcome of one dispatcher request: HTTP status
code, `status` field of the JSON response, `error` field, and the
engine operations performed, in order. -/
structure HandlerResult where
  statusCode : Nat
  status : String
  error : String
  ops : List Op
deriving DecidableEq, Repr

/-- The 404 response shared by all three dispatchers when no handle
in the running set has the requested path. -/
def dbNotFound (path : String) : HandlerResult :=
  ⟨404, "error", "database " ++ path ++ " not found", []⟩

/-- The 404 response shared by all three dispatchers when the
resolved handle owns no replica of the requested name. -/
def repNotFound (path name : String) : HandlerResult :=
  ⟨404, "error", "replica " ++ name ++ " for database " ++ path ++ " not found", []⟩

/-- CheckpointRequest (checkpoint.go lines 13-18). -/
structure CheckpointRequest where
  databasePath : String
  replicaName : String
  mode : String
  sync : Bool
deriving DecidableEq, Repr

/-- SyncRequest (sync.go lines 13-18). -/
structure SyncRequest where
  databasePath : String
  replicaName : String
  checkpoint : Bool
  checkpointMode : String
deriving DecidableEq, Repr

/-- SnapshotRequest (snapshot handler lines 13-17). -/
structure SnapshotRequest where
  databasePath : String
  replicaName : String
  cleanup : Bool
deriving DecidableEq, Repr

/-- CheckpointHandler.ServeHTTP from the database lookup on (lines
69-138): resolve the database by first exact path match, the replica
by first exact name match (404 on either miss), parse the mode, issue
the checkpoint, then, when requested, the replica sync; the first
failure yields a 500 and stops; otherwise 200/ok. -/
def serveCheckpoint (dbs : List DB) (req : CheckpointRequest) : HandlerResult :=
  match dbs.find? (fun cdb => cdb.path == req.databasePath) with
  | none => dbNotFound req.databasePath
  | some db =>
    match db.replicas.find? (fun crep => crep.name == req.replicaName) with
    | none => repNotFound req.databasePath req.replicaName
    | some rep =>
      let mode := parseMode req.mode
      match db.checkpointErr with
      | some e => ⟨500, "error",
          "error issuing checkpoint on database " ++ req.databasePath ++ ": " ++ e,
          [.checkpoint req.databasePath mode]⟩
      | none =>
        if req.sync then
          match rep.syncErr with
          | some e => ⟨500, "error",
              "error issuing sync on replica " ++ req.replicaName ++ " for database " ++ req.databasePath ++ ": " ++ e,
              [.checkpoint req.databasePath mode, .repSync req.databasePath req.replicaName]⟩
          | none => ⟨200, "ok", "",
              [.checkpoint req.databasePath mode, .repSync req.databasePath req.replicaName]⟩
        else ⟨200, "ok", "", [.checkpoint req.databasePath mode]⟩

/-- SyncHandler.ServeHTTP from the database lookup on (lines 69-147):
resolve database and replica (404 on a miss), parse the checkpoint
mode, sync the database, then sync the replica, then, when
`checkpoint` is set, checkpoint the database in the parsed mode; the
first failure yields a 500 and stops; otherwise 200/ok. -/
def serveSync (dbs : List DB) (req : SyncRequest) : HandlerResult :=
  match dbs.find? (fun cdb => cdb.path == req.databasePath) with
  | none => dbNotFound req.databasePath
  | some db =>
    match db.replicas.find? (fun crep => crep.name == req.replicaName) with
    | none => repNotFound req.databasePath req.replicaName
    | some rep =>
      let mode := parseMode req.checkpointMode
      match db.syncErr with
      | some e => ⟨500, "error",
          "error issuing sync on database " ++ req.databasePath ++ ": " ++ e,
          [.dbSync req.databasePath]⟩
      | none =>
        match rep.syncErr with
        | some e => ⟨500, "error",
            "error issuing sync on replica " ++ req.replicaName ++ " for database " ++ req.databasePath ++ ": " ++ e,
            [.dbSync req.databasePath, .repSync req.databasePath req.replicaName]⟩
        | none =>
          if req.checkpoint then
            match db.checkpointErr with
            | some e => ⟨500, "error",
                "error issuing checkpoint on database " ++ req.databasePath ++ ": " ++ e,
                [.dbSync req.databasePath, .repSync req.databasePath req.replicaName,
                 .checkpoint req.databasePath mode]⟩
            | none => ⟨200, "ok", "",
                [.dbSync req.databasePath, .repSync req.databasePath req.replicaName,
                 .checkpoint req.databasePath mode]⟩
          else ⟨200, "ok", "",
              [.dbSync req.databasePath, .repSync req.databasePath req.replicaName]⟩

/-- SnapshotHandler.ServeHTTP from the database lookup on (lines
68-126): resolve database and replica (404 on a miss), create the
snapshot, then, when `cleanup` is set, enforce retention; the first
failure yields a 500 and stops; otherwise 200/ok. -/
def serveSnapshot (dbs : List DB) (req : SnapshotRequest) : HandlerResult :=
  match dbs.find? (fun cdb => cdb.path == req.databasePath) with
  | none => dbNotFound req.databasePath
  | some db =>
    match db.replicas.find? (fun crep => crep.name == req.replicaName) with
    | none => repNotFound req.databasePath req.replicaName
    | some rep =>
      match rep.snapshotErr with
      | some e => ⟨500, "error",
          "error issuing snapshot on replica " ++ req.replicaName ++ " for database " ++ req.databasePath ++ ": " ++ e,
          [.snapshot req.databasePath req.replicaName]⟩
      | none =>
        if req.cleanup then
          match rep.retainErr with
          | some e => ⟨500, "error",
              "error issuing retain on replica " ++ req.replicaName ++ " for database " ++ req.databasePath ++ ": " ++ e,
              [.snapshot req.databasePath req.replicaName, .retain req.databasePath req.replicaName]⟩
          | none => ⟨200, "ok", "",
              [.snapshot req.databasePath req.replicaName, .retain req.databasePath req.replicaName]⟩
        else ⟨200, "ok", "", [.snapshot req.databasePath req.replicaName]⟩

/-! Concrete handles and documents used in the evaluation runs. -/

/-- Handle /a with identity 0. -/
def hdlA : DB := { id := 0, path := "/a" }

/-- Handle /b with identity 1. -/
def hdlB : DB := { id := 1, path := "/b" }

/-- Handle /c with identity 2. -/
def hdlC : DB := { id := 2, path := "/c" }

/-- Handle /d with identity 3. -/
def hdlD : DB := { id := 3, path := "/d" }

/-- Config entry for /a. -/
def cfgA : DBConfig := { path := "/a" }

/-- Config entry for /b. -/
def cfgB : DBConfig := { path := "/b" }

/-- Config entry for /d. -/
def cfgD : DBConfig := { path := "/d" }

/-- The addition/keep pass only appends: the running set after the
pass is the prior running set followed by exactly the handles it
opened, whether or not the pass aborted. -/
theorem additionPass_dbs_eq (dbs : List DB) (doc : List DBConfig) (n : Nat) :
    (additionPass dbs doc n).dbs = dbs ++ (additionPass dbs doc n).opened := by
  induction doc generalizing dbs n with
  | nil => simp [additionPass]
  | cons cfg rest ih =>
    simp only [additionPass]
    split
    · exact ih dbs n
    · match h1 : cfg.newErr with
      | some e => simp
      | none =>
        match h2 : cfg.openErr with
        | some e => simp
        | none =>
          simp only []
          rw [ih (dbs ++ [NewDBFromConfig n cfg]) (n + 1)]
          simp

/-- C1: the convergence claim fails on the code.  With running set
[/a, /b, /c, /d] and document [/a, /d], removing /b shifts the slice
under the range loop, so /c is never visited again: reconciliation
completes without error, only /b is closed, and the resulting running
set still contains /c, whose path is not in the document.  The spec's
intended post-condition (path set of the result equals the path set
of the document) is violated by this successful run. -/
theorem reconcile_skips_removal_run :
    (reconcile [hdlA, hdlB, hdlC, hdlD] [cfgA, cfgD] 4).err = none ∧
    (reconcile [hdlA, hdlB, hdlC, hdlD] [cfgA, cfgD] 4).dbs.map DB.path = ["/a", "/c", "/d"] ∧
    ([cfgA, cfgD].map DBConfig.path) = ["/a", "/d"] ∧
    (reconcile [hdlA, hdlB, hdlC, hdlD] [cfgA, cfgD] 4).closed.map DB.path = ["/b"] := by
  decide

/-- C9: the at-most-one-Close claim fails on the code.  With running
set [/a, /b, /c] and document [/b], closing /a shifts the slice under
the range loop; the final range index re-reads the stale last slot of
the backing array and finds /c again after /c has already been closed
and dropped, so Close(/c) is invoked a second time. -/
theorem reconcile_double_close_run :
    (reconcile [hdlA, hdlB, hdlC] [cfgB] 3).closed = [hdlA, hdlC, hdlC] ∧
    (reconcile [hdlA, hdlB, hdlC] [cfgB] 3).closed.count hdlC = 2 ∧
    (reconcile [hdlA, hdlB, hdlC] [cfgB] 3).err = none := by
  decide

/-- C3: when an addition fails (handle construction or Open), the
reconciliation returns that error at once: no Close was performed,
the removal pass never ran, and the running set is exactly the prior
handles followed by the handles successfully added before the
failure. -/
theorem reconcile_addition_failure (dbs : List DB) (doc : List DBConfig) (n : Nat)
    (e : String) (h : (additionPass dbs doc n).err = some e) :
    (reconcile dbs doc n).err = some e ∧
    (reconcile dbs doc n).closed = [] ∧
    (reconcile dbs doc n).dbs = dbs ++ (reconcile dbs doc n).opened ∧
    (reconcile dbs doc n).opened = (additionPass dbs doc n).opened := by
  have h2 := additionPass_dbs_eq dbs doc n
  simp only [reconcile, h]
  exact ⟨trivial, trivial, h2, trivial⟩

/-- C3 witness: with an empty running set and a document whose first
entry opens fine and whose second entry fails to open, the
reconciliation aborts with the open error, closes nothing, and keeps
exactly the one successfully added handle. -/
theorem reconcile_addition_failure_witness :
    (reconcile [] [cfgA, { path := "/bad", openErr := some "boom" }] 0).err =
      some "error opening database /bad for replication: boom" ∧
    (reconcile [] [cfgA, { path := "/bad", openErr := some "boom" }] 0).closed = [] ∧
    (reconcile [] [cfgA, { path := "/bad", openErr := some "boom" }] 0).dbs =
      [] ++ (reconcile [] [cfgA, { path := "/bad", openErr := some "boom" }] 0).opened ∧
    (reconcile [] [cfgA, { path := "/bad", openErr := some "boom" }] 0).opened =
      (additionPass [] [cfgA, { path := "/bad", openErr := some "boom" }] 0).opened :=
  reconcile_addition_failure [] [cfgA, { path := "/bad", openErr := some "boom" }] 0
    "error opening database /bad for replication: boom" (by decide)

/-- Command state used to exhibit a failing reconciliation whose new
document is nonetheless already stored: one running handle /a whose
Close fails. -/
def cmdCloseFail : ReplicateCommand :=
  { config := [cfgA], dbs := [{ id := 0, path := "/a", closeErr := some "boom" }], nextId := 1 }

/-- C10: the config handler stores the newly parsed document before
opening or closing any handle, so the stored configuration after the
handler equals the new document unconditionally, and the stored
running set equals the reconciliation outcome; in particular (second
conjunct) on a run whose Close fails, the error is returned while the
stored configuration is already the new (empty) document and the
running set still holds the handle it failed to close. -/
theorem serveConfig_replaces_config_first :
    (∀ (c : ReplicateCommand) (doc : List DBConfig),
      (serveConfig c doc).1.config = doc ∧
      (serveConfig c doc).1.dbs = (serveConfig c doc).2.dbs) ∧
    ((serveConfig cmdCloseFail []).2.err = some "error closing database /a: boom" ∧
     (serveConfig cmdCloseFail []).1.config = [] ∧
     (serveConfig cmdCloseFail []).1.dbs.map DB.path = ["/a"]) :=
  ⟨fun _ _ => ⟨rfl, rfl⟩, by decide⟩

/-- When every document entry's path is already carried by some
running handle, the addition/keep pass classifies every entry as Keep
and does nothing. -/
theorem additionPass_all_found (dbs : List DB) (doc : List DBConfig) (n : Nat)
    (h : ∀ e ∈ doc, ∃ db ∈ dbs, db.path = e.path) :
    additionPass dbs doc n = ⟨dbs, [], n, none⟩ := by
  induction doc with
  | nil => rfl
  | cons cfg rest ih =>
    obtain ⟨db, hmem, hpath⟩ := h cfg (List.mem_cons_self _ _)
    have hany : dbs.any (fun old => cfg.path == old.path) = true := by
      rw [List.any_eq_true]
      exact ⟨db, hmem, beq_iff_eq.mpr hpath.symm⟩
    simp only [additionPass, hany, if_true]
    exact ih (fun e he => h e (List.mem_cons_of_mem _ he))

/-- When every handle held in the backing array has its path in the
document, the removal loop classifies every visited handle as Keep
and does nothing. -/
theorem removalGo_all_kept (doc : List DBConfig) (bg : List DB) (len : Nat) (closed : List DB)
    (h : ∀ db ∈ bg, doc.any (fun e => db.path == e.path) = true) :
    ∀ idxs, removalGo doc bg len closed idxs = ⟨bg.take len, closed, none⟩ := by
  intro idxs
  induction idxs with
  | nil => rfl
  | cons i rest ih =>
    simp only [removalGo]
    cases hg : bg.get? i with
    | none => exact ih
    | some old =>
      have hk : doc.any (fun e => old.path == e.path) = true :=
        h old (List.get?_mem hg)
      simp only [hk, if_true]
      exact ih

/-- C2: reconciling a document against a running set already
converged to it (same path sets) performs zero Open calls and zero
Close calls, returns no error, and leaves the running set exactly as
it was. -/
theorem reconcile_idempotent (dbs : List DB) (doc : List DBConfig) (n : Nat)
    (h1 : ∀ db ∈ dbs, ∃ e ∈ doc, db.path = e.path)
    (h2 : ∀ e ∈ doc, ∃ db ∈ dbs, db.path = e.path) :
    reconcile dbs doc n = ⟨dbs, [], [], n, none⟩ := by
  have ha := additionPass_all_found dbs doc n h2
  have hr : ∀ db ∈ dbs, doc.any (fun e => db.path == e.path) = true := by
    intro db hm
    obtain ⟨e, he, hp⟩ := h1 db hm
    rw [List.any_eq_true]
    exact ⟨e, he, beq_iff_eq.mpr hp⟩
  have hrem := removalGo_all_kept doc dbs dbs.length [] hr (List.range dbs.length)
  simp only [reconcile, ha, removalPass, hrem, List.take_length]

/-- C2 witness: the one-handle running set [/a] reconciled against
the document [/a] is returned untouched, with no opens and no
closes. -/
theorem reconcile_idempotent_witness :
    reconcile [hdlA] [cfgA] 1 = ⟨[hdlA], [], [], 1, none⟩ :=
  reconcile_idempotent [hdlA] [cfgA] 1 (by decide) (by decide)

/-- Every handle opened by the addition pass was absent from the
running set the pass started from: its path differs from the path of
every handle already present. -/
theorem additionPass_opened_fresh (dbs : List DB) (doc : List DBConfig) (n : Nat) :
    ∀ o ∈ (additionPass dbs doc n).opened, ∀ d ∈ dbs, o.path ≠ d.path := by
  induction doc generalizing dbs n with
  | nil =>
    intro o ho
    simp [additionPass] at ho
  | cons cfg rest ih =>
    cases hfound : dbs.any (fun old => cfg.path == old.path) with
    | true =>
      simp only [additionPass, hfound, if_true]
      exact ih dbs n
    | false =>
      simp only [additionPass, hfound, Bool.false_eq_true, if_false]
      cases h1 : cfg.newErr with
      | some e =>
        intro o ho
        simp at ho
      | none =>
        cases h2 : cfg.openErr with
        | some e =>
          intro o ho
          simp at ho
        | none =>
          intro o ho d hd
          rcases List.mem_cons.mp ho with hoc | hmem
          · subst hoc
            intro hp
            have hbeq : (cfg.path == d.path) = true := beq_iff_eq.mpr hp
            have : dbs.any (fun old => cfg.path == old.path) = true :=
              List.any_eq_true.mpr ⟨d, hd, hbeq⟩
            rw [hfound] at this
            cases this
          · exact ih (dbs ++ [NewDBFromConfig n cfg]) (n + 1) o hmem d
              (List.mem_append_left _ hd)

/-- Filtering by `p` is unaffected by a previous filtering by `q`
when `p` implies `q`. -/
theorem filter_filter_of_imp {α : Type} (p q : α → Bool) (l : List α)
    (h : ∀ x, p x = true → q x = true) :
    (l.filter q).filter p = l.filter p := by
  induction l with
  | nil => rfl
  | cons x xs ih =>
    cases hq : q x with
    | true =>
      cases hp : p x with
      | true => simp [List.filter_cons, hq, hp, ih]
      | false => simp [List.filter_cons, hq, hp, ih]
    | false =>
      have hp : p x = false := by
        cases hpx : p x with
        | false => rfl
        | true => rw [h x hpx] at hq; cases hq
      simp [List.filter_cons, hq, hp, ih]

/-- Through the whole removal loop, filtering the running set by any
predicate that forces the handle's path to be in the document is
invariant: each compaction only drops handles whose path is not in
the document. -/
theorem removalGo_filter (doc : List DBConfig) (p : DB → Bool)
    (hp : ∀ db, p db = true → doc.any (fun e => db.path == e.path) = true) :
    ∀ (idxs : List Nat) (bg : List DB) (len : Nat) (closed : List DB),
      ((removalGo doc bg len closed idxs).dbs).filter p = (bg.take len).filter p := by
  intro idxs
  induction idxs with
  | nil =>
    intro bg len closed
    rfl
  | cons i rest ih =>
    intro bg len closed
    simp only [removalGo]
    cases hg : bg.get? i with
    | none => exact ih bg len closed
    | some old =>
      cases hk : doc.any (fun e => old.path == e.path) with
      | true =>
        simp only [hk, if_true]
        exact ih bg len closed
      | false =>
        simp only [hk, Bool.false_eq_true, if_false]
        cases hc : old.closeErr with
        | some e => rfl
        | none =>
          simp only [removalStep]
          rw [ih]
          rw [List.take_left]
          exact filter_filter_of_imp p (fun db => db != old) (bg.take len) (by
            intro x hx
            have hany := hp x hx
            cases hxo : x == old with
            | true =>
              have hxe : x = old := eq_of_beq hxo
              rw [hxe, hk] at hany
              cases hany
            | false => simp [bne, hxo])

/-- The claim's Keep classification: a handle present in the prior
running set whose path is listed in the new document. -/
def keepPred (dbs : List DB) (doc : List DBConfig) (db : DB) : Bool :=
  decide (db ∈ dbs) && doc.any (fun e => db.path == e.path)

/-- C4: across any reconciliation (aborted or not), the handles
classified Keep appear in the resulting running set exactly as they
appeared in the prior running set — same handles, same relative
order — even while the reconciliation adds and removes others. -/
theorem reconcile_keep_order (dbs : List DB) (doc : List DBConfig) (n : Nat) :
    ((reconcile dbs doc n).dbs).filter (keepPred dbs doc) =
      dbs.filter (keepPred dbs doc) := by
  have hadd : ((additionPass dbs doc n).dbs).filter (keepPred dbs doc) =
      dbs.filter (keepPred dbs doc) := by
    rw [additionPass_dbs_eq, List.filter_append]
    have hopened : ((additionPass dbs doc n).opened).filter (keepPred dbs doc) = [] := by
      rw [List.filter_eq_nil_iff]
      intro o ho
      have hfresh := additionPass_opened_fresh dbs doc n o ho
      have hmem : ¬ o ∈ dbs := fun hm => hfresh o hm rfl
      simp [keepPred, hmem]
    rw [hopened, List.append_nil]
  cases herr : (additionPass dbs doc n).err with
  | some e =>
    simp only [reconcile, herr]
    exact hadd
  | none =>
    simp only [reconcile, herr, removalPass]
    rw [removalGo_filter doc (keepPred dbs doc) ?_ (List.range _) _ _ []]
    · rw [List.take_length]
      exact hadd
    · intro db hdb
      exact ((Bool.and_eq_true _ _).mp hdb).2

/-- A mode string that is not exactly FULL, RESTART or TRUNCATE falls
through every branch of the mode check and yields PASSIVE. -/
theorem parseMode_unrecognized (s : String) (h1 : s ≠ "FULL") (h2 : s ≠ "RESTART")
    (h3 : s ≠ "TRUNCATE") : parseMode s = CheckpointMode.passive := by
  simp [parseMode, h1, h2, h3]

/-- C5: a checkpoint or sync request whose mode / checkpoint-mode
string is absent (empty) or not exactly FULL, RESTART or TRUNCATE is
processed identically to the same request carrying an explicit
PASSIVE mode — in particular it is never rejected as an error. -/
theorem mode_defaults_to_passive (dbs : List DB) (p n s : String) (sy cp : Bool)
    (h1 : s ≠ "FULL") (h2 : s ≠ "RESTART") (h3 : s ≠ "TRUNCATE") :
    serveCheckpoint dbs ⟨p, n, s, sy⟩ = serveCheckpoint dbs ⟨p, n, "PASSIVE", sy⟩ ∧
    serveSync dbs ⟨p, n, cp, s⟩ = serveSync dbs ⟨p, n, cp, "PASSIVE"⟩ := by
  have hm : parseMode s = CheckpointMode.passive := parseMode_unrecognized s h1 h2 h3
  have hm2 : parseMode "PASSIVE" = CheckpointMode.passive := by decide
  constructor
  · simp only [serveCheckpoint, hm, hm2]
  · simp only [serveSync, hm, hm2]

/-- C5 witness: on a concrete running set, a checkpoint request with
the unrecognized mode string "full" (wrong case) and a sync request
with an empty checkpoint-mode behave exactly like explicit PASSIVE
requests. -/
theorem mode_defaults_to_passive_witness :
    (serveCheckpoint [hdlA] ⟨"/a", "r0", "full", false⟩ =
      serveCheckpoint [hdlA] ⟨"/a", "r0", "PASSIVE", false⟩ ∧
     serveSync [hdlA] ⟨"/a", "r0", true, "full"⟩ =
      serveSync [hdlA] ⟨"/a", "r0", true, "PASSIVE"⟩) ∧
    (serveSync [hdlA] ⟨"/a", "r0", true, ""⟩ =
      serveSync [hdlA] ⟨"/a", "r0", true, "PASSIVE"⟩) :=
  ⟨mode_defaults_to_passive [hdlA] "/a" "r0" "full" false true
      (by decide) (by decide) (by decide),
   (mode_defaults_to_passive [hdlA] "/a" "r0" "" false true
      (by decide) (by decide) (by decide)).2⟩

/-- C6: for a sync request with checkpoint set, on a database and
replica resolved from the running set, the database sync and replica
sync run first and the checkpoint runs, in the parsed requested mode,
only after both syncs succeeded; the response is 200/ok exactly when
all three operations succeed, and the first failing operation yields
a 500 with no later operation attempted. -/
theorem sync_short_circuits (dbs : List DB) (req : SyncRequest) (db : DB) (rep : Replica)
    (hdb : dbs.find? (fun cdb => cdb.path == req.databasePath) = some db)
    (hrep : db.replicas.find? (fun crep => crep.name == req.replicaName) = some rep)
    (hcp : req.checkpoint = true) :
    (db.syncErr = none → rep.syncErr = none → db.checkpointErr = none →
      serveSync dbs req = ⟨200, "ok", "",
        [.dbSync req.databasePath, .repSync req.databasePath req.replicaName,
         .checkpoint req.databasePath (parseMode req.checkpointMode)]⟩) ∧
    (∀ e, db.syncErr = some e →
      (serveSync dbs req).statusCode = 500 ∧
      (serveSync dbs req).ops = [.dbSync req.databasePath]) ∧
    (∀ e, db.syncErr = none → rep.syncErr = some e →
      (serveSync dbs req).statusCode = 500 ∧
      (serveSync dbs req).ops =
        [.dbSync req.databasePath, .repSync req.databasePath req.replicaName]) ∧
    (∀ e, db.syncErr = none → rep.syncErr = none → db.checkpointErr = some e →
      (serveSync dbs req).statusCode = 500 ∧
      (serveSync dbs req).ops =
        [.dbSync req.databasePath, .repSync req.databasePath req.replicaName,
         .checkpoint req.databasePath (parseMode req.checkpointMode)]) ∧
    (((serveSync dbs req).statusCode = 200 ∧ (serveSync dbs req).status = "ok") ↔
      (db.syncErr = none ∧ rep.syncErr = none ∧ db.checkpointErr = none)) := by
  cases hs : db.syncErr <;> cases hr : rep.syncErr <;> cases hc : db.checkpointErr <;>
    simp [serveSync, hdb, hrep, hcp, hs, hr, hc]

/-- Handle /a carrying one replica r0 with every operation
succeeding. -/
def hdlAr : DB := { id := 0, path := "/a", replicas := [{ name := "r0" }] }

/-- C6 witness: a sync request with checkpoint true and mode FULL on
the running set [/a] with replica r0 syncs the database, syncs the
replica, then checkpoints in FULL mode, answering 200/ok. -/
theorem sync_short_circuits_witness :
    serveSync [hdlAr] ⟨"/a", "r0", true, "FULL"⟩ = ⟨200, "ok", "",
      [.dbSync "/a", .repSync "/a" "r0", .checkpoint "/a" .full]⟩ :=
  (sync_short_circuits [hdlAr] ⟨"/a", "r0", true, "FULL"⟩ hdlAr { name := "r0" }
      (by decide) (by decide) rfl).1 rfl rfl rfl

/-- A linear scan skips a leading block in which the predicate holds
nowhere. -/
theorem find?_append_none {α : Type} (p : α → Bool) (l1 l2 : List α)
    (h : ∀ x ∈ l1, p x = false) : (l1 ++ l2).find? p = l2.find? p := by
  induction l1 with
  | nil => rfl
  | cons x xs ih =>
    rw [List.cons_append, List.find?_cons_of_neg]
    · exact ih (fun y hy => h y (List.mem_cons_of_mem _ hy))
    · simp [h x (List.mem_cons_self _ _)]

/-- C8: for each of the checkpoint, sync and snapshot dispatchers:
when no handle in the running set carries the requested path, the
response is the 404 naming that path; when the running set splits as
pre ++ db :: rest with no match in pre and db matching, the request
is served exactly as if db were the head of the running set (the
first matching handle is the one used); and when that first matching
handle owns no replica of the requested name, the response is the
404 naming the requested replica and database. -/
theorem dispatcher_lookup (dbs : List DB) (p n m : String) (sy cp cl : Bool) :
    ((∀ d ∈ dbs, d.path ≠ p) →
      serveCheckpoint dbs ⟨p, n, m, sy⟩ = dbNotFound p ∧
      serveSync dbs ⟨p, n, cp, m⟩ = dbNotFound p ∧
      serveSnapshot dbs ⟨p, n, cl⟩ = dbNotFound p) ∧
    (∀ (pre rest : List DB) (db : DB), dbs = pre ++ db :: rest →
      (∀ d ∈ pre, d.path ≠ p) → db.path = p →
      (serveCheckpoint dbs ⟨p, n, m, sy⟩ = serveCheckpoint (db :: rest) ⟨p, n, m, sy⟩ ∧
       serveSync dbs ⟨p, n, cp, m⟩ = serveSync (db :: rest) ⟨p, n, cp, m⟩ ∧
       serveSnapshot dbs ⟨p, n, cl⟩ = serveSnapshot (db :: rest) ⟨p, n, cl⟩) ∧
      ((∀ rp ∈ db.replicas, rp.name ≠ n) →
        serveCheckpoint dbs ⟨p, n, m, sy⟩ = repNotFound p n ∧
        serveSync dbs ⟨p, n, cp, m⟩ = repNotFound p n ∧
        serveSnapshot dbs ⟨p, n, cl⟩ = repNotFound p n)) := by
  constructor
  · intro h
    have hfind : dbs.find? (fun cdb => cdb.path == p) = none := by
      rw [List.find?_eq_none]
      intro d hd
      simp [h d hd]
    exact ⟨by simp only [serveCheckpoint, hfind], by simp only [serveSync, hfind],
      by simp only [serveSnapshot, hfind]⟩
  · intro pre rest db hsplit hpre hdbp
    have hfind : dbs.find? (fun cdb => cdb.path == p) = some db := by
      rw [hsplit, find?_append_none _ _ _ (fun d hd => by simp [hpre d hd]),
        List.find?_cons_of_pos]
      simp [hdbp]
    have hhead : (db :: rest).find? (fun cdb => cdb.path == p) = some db := by
      rw [List.find?_cons_of_pos]
      simp [hdbp]
    constructor
    · exact ⟨by simp only [serveCheckpoint, hfind, hhead],
        by simp only [serveSync, hfind, hhead],
        by simp only [serveSnapshot, hfind, hhead]⟩
    · intro hrep
      have hrfind : db.replicas.find? (fun crep => crep.name == n) = none := by
        rw [List.find?_eq_none]
        intro rp hrp
        simp [hrep rp hrp]
      exact ⟨by simp only [serveCheckpoint, hfind, hrfind],
        by simp only [serveSync, hfind, hrfind],
        by simp only [serveSnapshot, hfind, hrfind]⟩

/-- C8 witness: on the running set [/a] (no replicas), requests for
the absent path /zz answer the 404 naming /zz on all three
dispatchers, and requests for /a resolve the handle at the head
(empty block before it) and answer the 404 naming the absent replica
r9 on all three dispatchers. -/
theorem dispatcher_lookup_witness :
    (serveCheckpoint [hdlA] ⟨"/zz", "r9", "", false⟩ = dbNotFound "/zz" ∧
     serveSync [hdlA] ⟨"/zz", "r9", false, ""⟩ = dbNotFound "/zz" ∧
     serveSnapshot [hdlA] ⟨"/zz", "r9", false⟩ = dbNotFound "/zz") ∧
    (serveCheckpoint [hdlA] ⟨"/a", "r9", "", false⟩ = repNotFound "/a" "r9" ∧
     serveSync [hdlA] ⟨"/a", "r9", false, ""⟩ = repNotFound "/a" "r9" ∧
     serveSnapshot [hdlA] ⟨"/a", "r9", false⟩ = repNotFound "/a" "r9") :=
  ⟨(dispatcher_lookup [hdlA] "/zz" "r9" "" false false false).1 (by decide),
   ((dispatcher_lookup [hdlA] "/a" "r9" "" false false false).2 [] [] hdlA rfl
      (by decide) (by decide)).2 (by decide)⟩

/-- Every member of the joined list occurs verbatim inside the joined
string. -/
theorem goJoin_contains (sep : String) (xs : List String) (x : String) (hx : x ∈ xs) :
    ∃ s t, goJoin sep xs = s ++ x ++ t := by
  induction xs with
  | nil => cases hx
  | cons y ys ih =>
    rcases List.mem_cons.mp hx with hxy | hmem
    · subst hxy
      cases ys with
      | nil =>
        exact ⟨"", "", by rw [goJoin, String.append_empty, String.empty_append]⟩
      | cons z zs =>
        refine ⟨"", sep ++ goJoin sep (z :: zs), ?_⟩
        rw [String.empty_append]
        show x ++ sep ++ goJoin sep (z :: zs) = x ++ (sep ++ goJoin sep (z :: zs))
        rw [String.append_assoc]
    · cases ys with
      | nil => cases hmem
      | cons z zs =>
        obtain ⟨s, t, hst⟩ := ih hmem
        refine ⟨y ++ sep ++ s, t, ?_⟩
        show y ++ sep ++ goJoin sep (z :: zs) = y ++ sep ++ s ++ x ++ t
        rw [hst, ← String.append_assoc, ← String.append_assoc]

/-- C7: when reconciliation succeeds (the parse is modelled as
already done and every open and close succeeded), the config
handler's response is a 200 whose plain-text body carries each path
of the resulting running set verbatim: the body enumerates the
resulting set of managed database paths. -/
theorem configResponse_enumerates (c : ReplicateCommand) (doc : List DBConfig)
    (h : (serveConfig c doc).2.err = none) :
    (serveConfigResponse c doc).2.1 = 200 ∧
    ∀ pth ∈ ((serveConfigResponse c doc).1.dbs.map DB.path),
      ∃ s t, (serveConfigResponse c doc).2.2 = s ++ pth ++ t := by
  have hresp : serveConfigResponse c doc =
      ((serveConfig c doc).1, 200, configSuccessBody (serveConfig c doc).1.dbs) := by
    simp only [serveConfigResponse, h]
  rw [hresp]
  refine ⟨rfl, ?_⟩
  intro pth hpth
  obtain ⟨s, t, hst⟩ :=
    goJoin_contains ", " ((serveConfig c doc).1.dbs.map DB.path) pth hpth
  refine ⟨"replicating " ++ toString (serveConfig c doc).1.dbs.length ++
    " databases: [" ++ s, t ++ "]", ?_⟩
  show configSuccessBody (serveConfig c doc).1.dbs = _
  rw [configSuccessBody, hst]
  simp only [String.append_assoc]

/-- Command state with an empty stored document and the running
handles /a and /b. -/
def cmdAB : ReplicateCommand := { config := [], dbs := [hdlA, hdlB], nextId := 2 }

/-- C7 witness: reloading cmdAB with the document [/a, /b] succeeds
and the 200 response body carries both resulting paths /a and /b
verbatim. -/
theorem configResponse_enumerates_witness :
    (serveConfigResponse cmdAB [cfgA, cfgB]).2.1 = 200 ∧
    ∀ pth ∈ ((serveConfigResponse cmdAB [cfgA, cfgB]).1.dbs.map DB.path),
      ∃ s t, (serveConfigResponse cmdAB [cfgA, cfgB]).2.2 = s ++ pth ++ t :=
  configResponse_enumerates cmdAB [cfgA, cfgB] (by decide)

end Litestream
